import Mathlib

set_option maxRecDepth 100000

/-!
Verification of the openregulations.ai retrieval-and-answer pipeline.

A shallow embedding of the pipeline implemented in
`src/website/worker/index.js` (RAG orchestrator `handleChat`, rate limiter
`checkRateLimit` / `incrementRateLimit`, context assembler `buildContext`)
and `src/website/src/lib/api-client.js` (client vector search:
`cosineSimilarity`, `searchSimilar`, `textSearch`, `clusterComments`).

Modelling conventions:
* JavaScript numbers are modelled exactly: integer-valued quantities
  (timestamps, counters) as `ℤ`/`ℕ`, fractional similarity scores as `ℚ`.
* `Math.sqrt` is modelled by an exact rational square root (`sqrtQ`); the
  development relies only on `sqrtQ 0 = 0` and its positivity on positives.
* A thrown JavaScript exception is an `Except` error value.
* `Array.prototype.sort` with a numeric comparator is stable (ECMA-262);
  it is modelled by the stable `List.insertionSort` on the comparator's
  non-strict order.
* The Cloudflare KV store is modelled per identity: the stored record for
  the caller is an `Option RateData` argument, and the external calls a
  request performs are recorded in an explicit event trace.
-/

/-! ## Rate limiter (`src/website/worker/index.js`) -/

/-- `RATE_LIMIT.MAX_REQUESTS_PER_DAY` from the worker. -/
def maxRequestsPerDay : ℕ := 100

/-- The window length `86400000` ms (one day) used in `checkRateLimit` and
`incrementRateLimit`. -/
def windowMs : ℤ := 86400000

/-- The parsed KV record `{count, resetAt}` kept per caller identity
(`resetAt` is a millisecond timestamp). -/
structure RateData where
  count : ℕ
  resetAt : ℤ
deriving DecidableEq

/-- Result of `checkRateLimit`: `{allowed: true}` or
`{allowed: false, retryAfter}`. -/
inductive CheckResult where
  | allowed
  | denied (retryAfter : ℤ)
deriving DecidableEq

/-- `Math.ceil(a / b)` for integer `a` and positive integer `b`, as computed
by the worker on exact values: the ceiling of the rational `a / b`. -/
def jsCeilDiv (a b : ℤ) : ℤ := -(Int.fdiv (-a) b)

/-- `checkRateLimit(ip, env)` with the request limit as a parameter (the
source reads the constant `RATE_LIMIT.MAX_REQUESTS_PER_DAY`): read the
stored record (absent → `{count: 0, resetAt: now + 86400000}`), reset it if
`now > resetAt`, then deny with `retryAfter = Math.ceil((resetAt - now)/1000)`
when `count >= limit`, otherwise allow.  The function performs no KV write. -/
def checkRateLimitWith (limit : ℕ) (stored : Option RateData) (now : ℤ) : CheckResult :=
  let data := stored.getD ⟨0, now + windowMs⟩
  let data := if data.resetAt < now then (⟨0, now + windowMs⟩ : RateData) else data
  if limit ≤ data.count then
    .denied (jsCeilDiv (data.resetAt - now) 1000)
  else
    .allowed

/-- `checkRateLimit` as deployed, with the limit `100`. -/
def checkRateLimit (stored : Option RateData) (now : ℤ) : CheckResult :=
  checkRateLimitWith maxRequestsPerDay stored now

/-- `incrementRateLimit(ip, env)`: read the stored record (absent →
`{count: 0, resetAt: now + 86400000}`); if `now > resetAt` store
`{count: 1, resetAt: now + 86400000}`, else store the record with `count`
incremented.  Returns the record written back to the KV store. -/
def incrementRateLimit (stored : Option RateData) (now : ℤ) : RateData :=
  let data := stored.getD ⟨0, now + windowMs⟩
  if data.resetAt < now then ⟨1, now + windowMs⟩
  else ⟨data.count + 1, data.resetAt⟩

/-! ## Strings: JavaScript helpers -/

/-- `s.slice(0, n)`: the first `n` characters of `s` (all of `s` when it is
shorter). -/
def jsSlice (s : String) (n : ℕ) : String := ⟨s.data.take n⟩

/-- The JavaScript pattern `a || b` on an optional string: `b` when `a` is
absent or empty (both are falsy), otherwise the string `a`. -/
def jsOr (a : Option String) (b : String) : String :=
  match a with
  | none => b
  | some s => if s = "" then b else s

/-- Does the needle occur at the head of the haystack?  (Helper for the
model of `String.prototype.includes`.) -/
def segStarts : List Char → List Char → Bool
  | _, [] => true
  | [], _ :: _ => false
  | c :: cs, d :: ds => decide (c = d) && segStarts cs ds

/-- Does the needle occur somewhere in the haystack?  (Model of
`String.prototype.includes`, on character lists.) -/
def segIn (needle : List Char) : List Char → Bool
  | [] => segStarts [] needle
  | c :: cs => segStarts (c :: cs) needle || segIn needle cs

/-- `hay.includes(needle)` on strings. -/
def strIncludes (hay needle : String) : Bool :=
  segIn needle.data hay.data

/-! ## Context assembler (`buildContext` in `src/website/worker/index.js`) -/

/-- One `{support, oppose}` sentiment split from an analysis row. -/
structure SentimentSplit where
  support : Option ℕ
  oppose : Option ℕ
deriving DecidableEq

/-- One theme `{name, description}` from an analysis row. -/
structure Theme where
  name : String
  description : Option String
deriving DecidableEq

/-- The analysis row fetched from the `analyses` table
(`themes,sentiment,executive_summary` are the fields `buildContext` reads). -/
structure Analysis where
  executive_summary : Option String
  sentiment : Option SentimentSplit
  themes : Option (List Theme)
deriving DecidableEq

/-- One search result returned by the `match_comments` RPC, as consumed by
`buildContext` and the sources list of `handleChat`. -/
structure RetrievedComment where
  comment_id : String
  comment_text : Option String
  text : Option String
  author : Option String
deriving DecidableEq

/-- The numbered excerpt `buildContext` appends for the comment at position
`i` (0-based): `[i+1] author: "text.slice(0, 300)..."` and a blank line. -/
def commentExcerpt (i : ℕ) (c : RetrievedComment) : String :=
  "[" ++ toString (i + 1) ++ "] " ++ jsOr c.author "Anonymous" ++ ": \"" ++
    jsSlice (jsOr c.comment_text (jsOr c.text "")) 300 ++ "...\"\n\n"

/-- `buildContext(comments, analysis)`: the analysis block (executive
summary, sentiment percentages, up to 5 themes) when an analysis is present,
followed by every comment appended as a numbered excerpt via `forEach`. -/
def buildContext (comments : List RetrievedComment) (analysis : Option Analysis) : String :=
  let analysisPart :=
    match analysis with
    | none => ""
    | some a =>
      "## Docket Analysis Summary\n" ++ jsOr a.executive_summary "" ++ "\n\n" ++
        (match a.sentiment with
         | none => ""
         | some s =>
           "Sentiment: " ++ toString (s.support.getD 0) ++ "% support, " ++
             toString (s.oppose.getD 0) ++ "% oppose\n\n") ++
        (match a.themes with
         | none => ""
         | some ts =>
           if ts.length ≠ 0 then
             (ts.take 5).foldl
               (fun acc t => acc ++ "- " ++ t.name ++ ": " ++ jsOr t.description "" ++ "\n")
               "Key Themes:\n" ++ "\n"
           else "")
  let commentsPart :=
    if comments.length ≠ 0 then
      comments.enum.foldl (fun acc p => acc ++ commentExcerpt p.1 p.2) "## Relevant Comments\n"
    else ""
  analysisPart ++ commentsPart

/-! ## RAG orchestrator (`handleChat` in `src/website/worker/index.js`) -/

/-- The external calls `handleChat` can issue, in order of appearance:
the KV read inside `checkRateLimit`, the embedding call
(`generateEmbedding`), the `match_comments` RPC, the `analyses` table query,
the completion call to the model API, and the KV write inside
`incrementRateLimit`. -/
inductive CallEvent where
  | kvGet
  | embeddingCall
  | matchCommentsCall
  | analysesCall
  | claudeCall
  | kvPut
deriving DecidableEq

/-- Outcomes of the external collaborators for one chat turn.  An `.error`
value stands for the corresponding `fetch` throwing or returning a
non-success status; `claudeOk` is `response.ok` of the completion call. -/
structure ChatDeps where
  embedResult : Except Unit (List ℚ)
  matchResult : Except Unit (List RetrievedComment)
  analysesResult : Except Unit (List Analysis)
  claudeOk : Bool
  claudeText : String

/-- The request body `{message, docket_id, conversation_history}`; a missing
`message` is modelled by `""` (both are falsy in the source's `!message`
test). -/
structure ChatRequestBody where
  message : String
  docket_id : Option String
deriving DecidableEq

/-- What one `handleChat` turn produced: the HTTP status, the `retryAfter`
field of a 429 body, the caller's rate-limit record after the turn, and the
trace of external calls issued. -/
structure ChatOutcome where
  status : ℕ
  retryAfter : Option ℤ
  store : Option RateData
  events : List CallEvent
deriving DecidableEq

/-- `handleChat(request, env)` for one caller identity: check the rate
limit (KV read) and fail fast with 429 on denial; reject an empty message
with 400; try the embedding and `match_comments` calls, absorbing their
failures into an empty result list; fetch the analysis row when a docket id
is given, absorbing failure; build the grounding context; call the
completion model, returning 502 on failure; on success record quota usage
(KV write) and return 200. -/
def handleChat (deps : ChatDeps) (stored : Option RateData) (now : ℤ)
    (body : ChatRequestBody) : ChatOutcome :=
  let events := [CallEvent.kvGet]
  match checkRateLimit stored now with
  | .denied retryAfter => ⟨429, some retryAfter, stored, events⟩
  | .allowed =>
    if body.message = "" then ⟨400, none, stored, events⟩
    else
      let (relevantComments, events) :=
        match deps.embedResult with
        | .error _ => (([] : List RetrievedComment), events ++ [CallEvent.embeddingCall])
        | .ok _ =>
          match deps.matchResult with
          | .error _ => ([], events ++ [CallEvent.embeddingCall, CallEvent.matchCommentsCall])
          | .ok rs => (rs, events ++ [CallEvent.embeddingCall, CallEvent.matchCommentsCall])
      let (analysis, events) :=
        match body.docket_id with
        | none => ((none : Option Analysis), events)
        | some _ =>
          match deps.analysesResult with
          | .error _ => (none, events ++ [CallEvent.analysesCall])
          | .ok rows => (rows.head?, events ++ [CallEvent.analysesCall])
      let _context := buildContext relevantComments analysis
      let events := events ++ [CallEvent.claudeCall]
      if deps.claudeOk then
        ⟨200, none, some (incrementRateLimit stored now), events ++ [CallEvent.kvPut]⟩
      else
        ⟨502, none, stored, events⟩

/-! ## Client vector search (`src/website/src/lib/api-client.js`) -/

/-- Floor square root on naturals (largest `k` with `k * k ≤ n`), by linear
search; used only in the model of `Math.sqrt`. -/
def natSqrt (n : ℕ) : ℕ :=
  ((List.range (n + 1)).filter (fun k => decide (k * k ≤ n))).length - 1

/-- Model of `Math.sqrt` on exact rationals: the floor square roots of
numerator and denominator.  Exact on perfect squares; everywhere it is zero
exactly on zero and positive on positives, which is all the development
relies on (the source compares `Math.sqrt(sum)` against `0` and divides by
it otherwise). -/
def sqrtQ (q : ℚ) : ℚ := (natSqrt q.num.toNat : ℚ) / (natSqrt q.den : ℚ)

/-- The error thrown by `cosineSimilarity`:
`new Error('Vectors must have same dimension')`. -/
inductive VecError where
  | dimensionMismatch
deriving DecidableEq

/-- The magnitude (`Math.sqrt` of the sum of squares) a vector is given in
`cosineSimilarity`. -/
def magnitude (v : List ℚ) : ℚ := sqrtQ (v.foldl (fun acc x => acc + x * x) 0)

/-- `cosineSimilarity(a, b)`: throw on a length mismatch; otherwise one loop
accumulates the dot product and both sums of squares (here: three folds over
the same entries), and the function returns `0` when either magnitude is
zero, else the normalized dot product. -/
def cosineSimilarity (a b : List ℚ) : Except VecError ℚ :=
  if a.length ≠ b.length then .error .dimensionMismatch
  else
    let dotProduct := (a.zip b).foldl (fun acc p => acc + p.1 * p.2) 0
    let normA := magnitude a
    let normB := magnitude b
    if normA = 0 ∨ normB = 0 then .ok 0
    else .ok (dotProduct / (normA * normB))

/-- One record of a loaded embeddings file (`embeddings-<docketId>.json`). -/
structure EmbComment where
  id : String
  text_preview : String
  sentiment : String
  theme_ids : List String
  embedding : List ℚ
deriving DecidableEq

/-- A loaded embeddings collection (`embeddingsData.comments`); `none`
models a null/absent collection. -/
structure EmbeddingsData where
  comments : List EmbComment
deriving DecidableEq

/-- One entry of the array `searchSimilar` builds before sorting:
`{id, text, sentiment, themes, score}`. -/
structure SearchResult where
  id : String
  text : String
  sentiment : String
  themes : List String
  score : ℚ
deriving DecidableEq

/-- The `.map` step of `searchSimilar`: score every record against the
query.  A `cosineSimilarity` exception propagates out (the first one thrown,
as in the source). -/
def scoredResults (queryEmbedding : List ℚ) : List EmbComment → Except VecError (List SearchResult)
  | [] => .ok []
  | comment :: rest =>
    match cosineSimilarity queryEmbedding comment.embedding with
    | .error e => .error e
    | .ok score =>
      match scoredResults queryEmbedding rest with
      | .error e => .error e
      | .ok tail =>
        .ok (⟨comment.id, comment.text_preview, comment.sentiment, comment.theme_ids, score⟩ :: tail)

/-- The comparator `(a, b) => b.score - a.score` keeps `a` before `b`
exactly when `b.score ≤ a.score`. -/
def scoreDesc (a b : SearchResult) : Prop := b.score ≤ a.score

instance : DecidableRel scoreDesc :=
  fun a b => inferInstanceAs (Decidable (b.score ≤ a.score))

/-- `searchSimilar(queryEmbedding, embeddingsData, topK)`: empty on a
null/absent collection; otherwise score all records, sort by score
descending (stable) and keep the first `topK`. -/
def searchSimilar (queryEmbedding : List ℚ) (embeddingsData : Option EmbeddingsData)
    (topK : ℕ) : Except VecError (List SearchResult) :=
  match embeddingsData with
  | none => .ok []
  | some data =>
    match scoredResults queryEmbedding data.comments with
    | .error e => .error e
    | .ok results => .ok ((List.insertionSort scoreDesc results).take topK)

/-! ## Lexical fallback (`textSearch` in `src/website/src/lib/api-client.js`) -/

/-- `String.prototype.toLowerCase` (character-wise lowering). -/
def jsToLower (s : String) : String := ⟨s.data.map Char.toLower⟩

/-- Split a character list at every separator character (empty pieces mark
adjacent separators). -/
def splitAux (p : Char → Bool) : List Char → List Char → List (List Char)
  | [], acc => [acc.reverse]
  | c :: cs, acc => if p c then acc.reverse :: splitAux p cs [] else splitAux p cs (c :: acc)

/-- `query.split(/\s+/)` is modelled by splitting at every whitespace
character.  A whitespace run then yields empty pieces instead of one break,
and only there do the two readings differ - every such empty piece is
removed by the `length > 2` token filter that follows in `textSearch`, so
the tokens of length at least 3 coincide. -/
def jsStrSplit (s : String) (p : Char → Bool) : List String :=
  (splitAux p s.data []).map (fun l => ⟨l⟩)

/-- The tokens `textSearch` keeps: lowercase the query, split on
whitespace, and keep the pieces longer than two characters. -/
def queryTokens (query : String) : List String :=
  (jsStrSplit (jsToLower query) (fun c => c.isWhitespace)).filter (fun t => 2 < t.length)

/-- A comment as consumed by `textSearch` (`comment.text` or
`comment.text_preview` may be absent). -/
structure TextComment where
  text : Option String
  text_preview : Option String
deriving DecidableEq

/-- One entry of the array `textSearch` builds: the original comment
(spread) plus its `matchScore`. -/
structure ScoredComment where
  comment : TextComment
  matchScore : ℚ
deriving DecidableEq

/-- The `.map` step of `textSearch`: `matchScore` is the number of query
terms contained (case-insensitively) in the comment's text, divided by the
number of query terms.  With no query terms the JavaScript source computes
`0/0 = NaN`; here `0 / 0 = 0`, and the two agree on the only use of the
value, the `matchScore > 0` filter (false for `NaN` and for `0`). -/
def scoreComment (queryTerms : List String) (comment : TextComment) : ScoredComment :=
  let textLower := jsToLower (jsOr comment.text (jsOr comment.text_preview ""))
  let matchCount := (queryTerms.filter (fun term => strIncludes textLower term)).length
  ⟨comment, (matchCount : ℚ) / (queryTerms.length : ℚ)⟩

/-- The comparator `(a, b) => b.matchScore - a.matchScore` keeps `a` before
`b` exactly when `b.matchScore ≤ a.matchScore`. -/
def matchDesc (a b : ScoredComment) : Prop := b.matchScore ≤ a.matchScore

instance : DecidableRel matchDesc :=
  fun a b => inferInstanceAs (Decidable (b.matchScore ≤ a.matchScore))

/-- `textSearch(query, comments)`: tokenize the query, score every comment,
drop the comments with no matching token, and sort by `matchScore`
descending (stable). -/
def textSearch (query : String) (comments : List TextComment) : List ScoredComment :=
  let queryTerms := queryTokens query
  List.insertionSort matchDesc
    ((comments.map (scoreComment queryTerms)).filter (fun c => decide (0 < c.matchScore)))

/-! ## Approximate clusterer (`clusterComments` in
`src/website/src/lib/api-client.js`) -/

/-- One entry of the assignment list `clusterComments` returns. -/
structure ClusterAssignment where
  commentId : String
  cluster : ℕ
  score : ℚ
deriving DecidableEq

/-- The centroid-initialization loop: draw indices until `k` distinct ones
are collected.  `Math.random()` is modelled by the stream `picks` of drawn
indices (the source's loop almost surely terminates; a finite stream that
runs out simply stops early, which no claim depends on). -/
def pickDistinct (k : ℕ) : List ℕ → List ℕ → List ℕ
  | [], acc => acc
  | p :: rest, acc =>
    if acc.length < k then
      if p ∈ acc then pickDistinct k rest acc else pickDistinct k rest (acc ++ [p])
    else acc

/-- The assignment step for one comment: the centroid index maximizing
cosine similarity, starting from `bestCluster = 0`, `bestScore = -1`, taking
a later centroid only on a strictly greater score. -/
def bestCentroid (embedding : List ℚ) : List (ℕ × List ℚ) → ℕ × ℚ → Except VecError (ℕ × ℚ)
  | [], best => .ok best
  | p :: rest, best =>
    match cosineSimilarity embedding p.2 with
    | .error e => .error e
    | .ok score => bestCentroid embedding rest (if best.2 < score then (p.1, score) else best)

/-- The assignment for one comment, built from the winning centroid. -/
def assignComment (centroids : List (List ℚ)) (comment : EmbComment) :
    Except VecError ClusterAssignment :=
  match bestCentroid comment.embedding centroids.enum ((0 : ℕ), (-1 : ℚ)) with
  | .error e => .error e
  | .ok best => .ok ⟨comment.id, best.1, best.2⟩

/-- The assignment loop of `clusterComments` over all comments. -/
def assignAll (centroids : List (List ℚ)) : List EmbComment → Except VecError (List ClusterAssignment)
  | [] => .ok []
  | c :: cs =>
    match assignComment centroids c with
    | .error e => .error e
    | .ok a =>
      match assignAll centroids cs with
      | .error e => .error e
      | .ok rest => .ok (a :: rest)

/-- `clusterComments(embeddingsData, k)`: return `[]` when the collection
is null/absent or has fewer than `k` records; otherwise pick `k` distinct
random records as centroids and assign every record to its nearest
centroid. -/
def clusterComments (embeddingsData : Option EmbeddingsData) (k : ℕ) (picks : List ℕ) :
    Except VecError (List ClusterAssignment) :=
  match embeddingsData with
  | none => .ok []
  | some data =>
    if data.comments.length < k then .ok []
    else
      let idxs := pickDistinct k picks []
      let centroids := idxs.filterMap (fun i => (data.comments.get? i).map EmbComment.embedding)
      assignAll centroids data.comments

deriving instance DecidableEq for Except

/-! ## Helper lemmas -/

/-- The worker's `Math.ceil((resetAt - now) / 1000)` is the exact rational
ceiling of the millisecond difference over 1000. -/
theorem jsCeilDiv_thousand (a : ℤ) : jsCeilDiv a 1000 = ⌈(a : ℚ) / 1000⌉ := by
  rw [jsCeilDiv, Int.fdiv_eq_ediv _ (by norm_num)]
  have h : ((-a : ℤ) / (1000 : ℤ)) = ⌊((-a : ℤ) : ℚ) / ((1000 : ℕ) : ℚ)⌋ :=
    (Rat.floor_intCast_div_natCast (-a) 1000).symm
  rw [h]
  push_cast
  rw [neg_div, Int.floor_neg]
  ring_nf

theorem jsCeilDiv_thousand_nonneg {a : ℤ} (h : 0 ≤ a) : 0 ≤ jsCeilDiv a 1000 := by
  rw [jsCeilDiv_thousand]
  exact Int.ceil_nonneg (div_nonneg (by exact_mod_cast h) (by norm_num))

theorem jsCeilDiv_thousand_pos {a : ℤ} (h : 0 < a) : 0 < jsCeilDiv a 1000 := by
  rw [jsCeilDiv_thousand]
  exact Int.ceil_pos.mpr (div_pos (by exact_mod_cast h) (by norm_num))

/-! ## Claims about the rate limiter and the orchestrator -/

/-- C4: `checkRateLimit` allows a Fresh identity (no record, or `now` past
`windowResetAt`) - and, reading only, never writes the store; allows a
Tracked identity with `count < limit`; and denies a Tracked identity with
`count ≥ limit` with `retryAfterSeconds` equal to `windowResetAt - now`
expressed in seconds (the ceiling of the millisecond difference over
1000). -/
theorem checkRateLimit_spec (d : RateData) (now : ℤ) :
    checkRateLimit none now = .allowed ∧
    (d.resetAt < now → checkRateLimit (some d) now = .allowed) ∧
    (now ≤ d.resetAt → d.count < maxRequestsPerDay → checkRateLimit (some d) now = .allowed) ∧
    (now ≤ d.resetAt → maxRequestsPerDay ≤ d.count →
      checkRateLimit (some d) now = .denied ⌈((d.resetAt - now : ℤ) : ℚ) / 1000⌉) := by
  have hM : 0 < maxRequestsPerDay := by decide
  refine ⟨?_, ?_, ?_, ?_⟩
  · simp only [checkRateLimit, checkRateLimitWith, Option.getD_none]
    split_ifs with h1 h2 <;> simp_all
  · intro h
    simp only [checkRateLimit, checkRateLimitWith, Option.getD_some]
    split_ifs with h1 h2 <;> simp_all
  · intro h1 h2
    simp only [checkRateLimit, checkRateLimitWith, Option.getD_some]
    split_ifs with ha hb <;> simp_all <;> omega
  · intro h1 h2
    simp only [checkRateLimit, checkRateLimitWith, Option.getD_some]
    rw [if_neg (show ¬ d.resetAt < now by omega)]
    rw [if_pos h2, jsCeilDiv_thousand]

/-- Witness for C4 at concrete inputs: a Tracked identity with 2 of 100
requests used is allowed at time 0; one with 100 used is denied with the
5000 ms left to the reset expressed in seconds. -/
theorem checkRateLimit_spec_witness :
    checkRateLimit (some ⟨2, 5000⟩) 0 = .allowed ∧
    checkRateLimit (some ⟨100, 5000⟩) 0 = .denied ⌈(((5000 : ℤ) - 0 : ℤ) : ℚ) / 1000⌉ :=
  ⟨(checkRateLimit_spec ⟨2, 5000⟩ 0).2.2.1 (by decide) (by decide),
   (checkRateLimit_spec ⟨100, 5000⟩ 0).2.2.2 (by decide) (by decide)⟩

/-- C5: with `limit = 3`, starting Fresh, three `check`+`record` cycles
inside one window are all allowed; the fourth `check` is denied with a
positive `retryAfterSeconds`; and once the clock passes `windowResetAt` the
count is treated as reset - the next `check` is allowed again and `record`
creates `{count: 1, windowResetAt: now + windowLength}`. -/
theorem rateLimiter_limit3_cycle (t1 t2 t3 t4 t5 : ℤ)
    (h12 : t1 ≤ t2) (h23 : t2 ≤ t3) (h34 : t3 ≤ t4)
    (h4 : t4 < t1 + windowMs) (h5 : t1 + windowMs < t5) :
    checkRateLimitWith 3 none t1 = .allowed ∧
    incrementRateLimit none t1 = ⟨1, t1 + windowMs⟩ ∧
    checkRateLimitWith 3 (some ⟨1, t1 + windowMs⟩) t2 = .allowed ∧
    incrementRateLimit (some ⟨1, t1 + windowMs⟩) t2 = ⟨2, t1 + windowMs⟩ ∧
    checkRateLimitWith 3 (some ⟨2, t1 + windowMs⟩) t3 = .allowed ∧
    incrementRateLimit (some ⟨2, t1 + windowMs⟩) t3 = ⟨3, t1 + windowMs⟩ ∧
    (∃ r : ℤ, checkRateLimitWith 3 (some ⟨3, t1 + windowMs⟩) t4 = .denied r ∧ 0 < r) ∧
    checkRateLimitWith 3 (some ⟨3, t1 + windowMs⟩) t5 = .allowed ∧
    incrementRateLimit (some ⟨3, t1 + windowMs⟩) t5 = ⟨1, t5 + windowMs⟩ := by
  have hw : (0 : ℤ) < windowMs := by decide
  refine ⟨?_, ?_, ?_, ?_, ?_, ?_, ?_, ?_, ?_⟩
  · simp only [checkRateLimitWith, Option.getD_none]
    split_ifs with h1 h2 <;> simp_all
  · simp only [incrementRateLimit, Option.getD_none]
    split_ifs with h1 <;> simp_all
  · simp only [checkRateLimitWith, Option.getD_some]
    split_ifs with h1 h2 <;> simp_all
  · simp only [incrementRateLimit, Option.getD_some]
    split_ifs with h1 <;> simp_all <;> omega
  · simp only [checkRateLimitWith, Option.getD_some]
    split_ifs with h1 h2 <;> simp_all
  · simp only [incrementRateLimit, Option.getD_some]
    split_ifs with h1 <;> simp_all <;> omega
  · refine ⟨jsCeilDiv (t1 + windowMs - t4) 1000, ?_, jsCeilDiv_thousand_pos (by omega)⟩
    simp only [checkRateLimitWith, Option.getD_some]
    rw [if_neg (show ¬ (⟨3, t1 + windowMs⟩ : RateData).resetAt < t4 by simp; omega)]
    rw [if_pos (show (3 : ℕ) ≤ (⟨3, t1 + windowMs⟩ : RateData).count by simp)]
  · simp only [checkRateLimitWith, Option.getD_some]
    split_ifs with h1 h2 <;> simp_all
  · simp only [incrementRateLimit, Option.getD_some]
    split_ifs with h1 <;> simp_all

/-- Witness for C5: the three cycles at time 0, the denied fourth check at
time 1, and the reset at time `86400001`, one past the window end. -/
theorem rateLimiter_limit3_cycle_witness :
    checkRateLimitWith 3 none 0 = .allowed ∧
    incrementRateLimit none 0 = ⟨1, 0 + windowMs⟩ ∧
    checkRateLimitWith 3 (some ⟨1, 0 + windowMs⟩) 0 = .allowed ∧
    incrementRateLimit (some ⟨1, 0 + windowMs⟩) 0 = ⟨2, 0 + windowMs⟩ ∧
    checkRateLimitWith 3 (some ⟨2, 0 + windowMs⟩) 0 = .allowed ∧
    incrementRateLimit (some ⟨2, 0 + windowMs⟩) 0 = ⟨3, 0 + windowMs⟩ ∧
    (∃ r : ℤ, checkRateLimitWith 3 (some ⟨3, 0 + windowMs⟩) 1 = .denied r ∧ 0 < r) ∧
    checkRateLimitWith 3 (some ⟨3, 0 + windowMs⟩) 86400001 = .allowed ∧
    incrementRateLimit (some ⟨3, 0 + windowMs⟩) 86400001 = ⟨1, 86400001 + windowMs⟩ :=
  rateLimiter_limit3_cycle 0 0 0 1 86400001 (by decide) (by decide) (by decide)
    (by decide) (by decide)

/-- C2 counterexample: a Tracked identity with `count = limit` in a window
that is still open (`now = windowResetAt`, and expiry requires
`now > windowResetAt`) is denied with `retryAfter = 0` - the response is
HTTP 429 but the `retryAfter` it carries is not positive. -/
theorem handleChat_denied_retryAfter_zero :
    (handleChat ⟨.ok [], .ok [], .ok [], true, "ok"⟩ (some ⟨100, 0⟩) 0 ⟨"test", none⟩).status
        = 429 ∧
    (handleChat ⟨.ok [], .ok [], .ok [], true, "ok"⟩ (some ⟨100, 0⟩) 0 ⟨"test", none⟩).retryAfter
        = some 0 := by
  constructor <;> rfl

/-- C2 (amended): for a Tracked identity with `count ≥ limit` in an open
window, `handleChat` responds 429 with
`retryAfter = Math.ceil((windowResetAt - now) / 1000)`, which is nonnegative
and positive whenever `now` is strictly before `windowResetAt`; the store
is left unchanged and the only call issued is the rate-limit KV read - in
particular neither the embedding call nor the completion call happens. -/
theorem handleChat_denied_no_downstream (deps : ChatDeps) (d : RateData) (now : ℤ)
    (body : ChatRequestBody) (hcount : maxRequestsPerDay ≤ d.count) (hopen : now ≤ d.resetAt) :
    (handleChat deps (some d) now body).status = 429 ∧
    (handleChat deps (some d) now body).retryAfter = some (jsCeilDiv (d.resetAt - now) 1000) ∧
    0 ≤ jsCeilDiv (d.resetAt - now) 1000 ∧
    (now < d.resetAt → 0 < jsCeilDiv (d.resetAt - now) 1000) ∧
    (handleChat deps (some d) now body).store = some d ∧
    CallEvent.embeddingCall ∉ (handleChat deps (some d) now body).events ∧
    CallEvent.claudeCall ∉ (handleChat deps (some d) now body).events := by
  have hdenied : checkRateLimit (some d) now = .denied (jsCeilDiv (d.resetAt - now) 1000) := by
    simp only [checkRateLimit, checkRateLimitWith, Option.getD_some]
    rw [if_neg (show ¬ d.resetAt < now by omega), if_pos hcount]
  refine ⟨?_, ?_, jsCeilDiv_thousand_nonneg (by omega),
    fun h => jsCeilDiv_thousand_pos (by omega), ?_, ?_, ?_⟩ <;>
    simp [handleChat, hdenied]

/-- Witness for C2 (amended) at a concrete denied request: `count = 100`,
window open for another 1000 ms. -/
theorem handleChat_denied_no_downstream_witness :
    (handleChat ⟨.ok [], .ok [], .ok [], true, "ok"⟩ (some ⟨100, 1000⟩) 0
        ⟨"test", none⟩).status = 429 ∧
    (handleChat ⟨.ok [], .ok [], .ok [], true, "ok"⟩ (some ⟨100, 1000⟩) 0
        ⟨"test", none⟩).retryAfter = some (jsCeilDiv ((1000 : ℤ) - 0) 1000) ∧
    0 ≤ jsCeilDiv ((1000 : ℤ) - 0) 1000 ∧
    ((0 : ℤ) < 1000 → 0 < jsCeilDiv ((1000 : ℤ) - 0) 1000) ∧
    (handleChat ⟨.ok [], .ok [], .ok [], true, "ok"⟩ (some ⟨100, 1000⟩) 0
        ⟨"test", none⟩).store = some ⟨100, 1000⟩ ∧
    CallEvent.embeddingCall ∉ (handleChat ⟨.ok [], .ok [], .ok [], true, "ok"⟩
        (some ⟨100, 1000⟩) 0 ⟨"test", none⟩).events ∧
    CallEvent.claudeCall ∉ (handleChat ⟨.ok [], .ok [], .ok [], true, "ok"⟩
        (some ⟨100, 1000⟩) 0 ⟨"test", none⟩).events :=
  handleChat_denied_no_downstream ⟨.ok [], .ok [], .ok [], true, "ok"⟩ ⟨100, 1000⟩ 0
    ⟨"test", none⟩ (by decide) (by decide)

/-- C3: when the completion call fails, `handleChat` returns HTTP 502, the
rate-limit record for the identity is exactly what it was before the turn,
and no KV write is issued - `incrementRateLimit` runs only after a
successful completion response. -/
theorem handleChat_completion_failure_no_record (deps : ChatDeps) (stored : Option RateData)
    (now : ℤ) (body : ChatRequestBody) (hallow : checkRateLimit stored now = .allowed)
    (hmsg : body.message ≠ "") (hfail : deps.claudeOk = false) :
    (handleChat deps stored now body).status = 502 ∧
    (handleChat deps stored now body).store = stored ∧
    CallEvent.kvPut ∉ (handleChat deps stored now body).events := by
  rcases deps with ⟨embedResult, matchResult, analysesResult, claudeOk, claudeText⟩
  cases hfail
  rcases body with ⟨message, docket⟩
  rcases embedResult with e | q <;> rcases matchResult with e2 | rs <;>
    rcases docket with _ | docketId <;> rcases analysesResult with e3 | rows <;>
    simp [handleChat, hallow, hmsg]

/-- Witness for C3: a failing completion call at a concrete request whose
rate-limit check passes. -/
theorem handleChat_completion_failure_no_record_witness :
    (handleChat ⟨.ok [], .ok [], .ok [], false, ""⟩ none 0 ⟨"test", none⟩).status = 502 ∧
    (handleChat ⟨.ok [], .ok [], .ok [], false, ""⟩ none 0 ⟨"test", none⟩).store = none ∧
    CallEvent.kvPut ∉ (handleChat ⟨.ok [], .ok [], .ok [], false, ""⟩ none 0
        ⟨"test", none⟩).events :=
  handleChat_completion_failure_no_record ⟨.ok [], .ok [], .ok [], false, ""⟩ none 0
    ⟨"test", none⟩ (by decide) (by decide) rfl

/-! ## Claims about the client vector search -/

/-- C6: `cosineSimilarity` fails with the dimension-mismatch error when the
lengths differ, and for equal-length inputs returns the value `0` (not an
error) whenever either vector has zero magnitude. -/
theorem cosineSimilarity_spec (a b : List ℚ) :
    (a.length ≠ b.length → cosineSimilarity a b = .error .dimensionMismatch) ∧
    (a.length = b.length → magnitude a = 0 ∨ magnitude b = 0 →
      cosineSimilarity a b = .ok 0) := by
  constructor
  · intro h
    rw [cosineSimilarity, if_pos h]
  · intro hlen hmag
    simp only [cosineSimilarity]
    rw [if_neg (not_not_intro hlen), if_pos hmag]

/-- Witness for C6: `[1]` against `[1, 2]` mismatches; `[0, 0]` has zero
magnitude, so against `[3, 4]` the similarity is the value `0`. -/
theorem cosineSimilarity_spec_witness :
    cosineSimilarity [1] [1, 2] = .error .dimensionMismatch ∧
    cosineSimilarity [0, 0] [3, 4] = .ok 0 :=
  ⟨(cosineSimilarity_spec [1] [1, 2]).1 (by decide),
   (cosineSimilarity_spec [0, 0] [3, 4]).2 (by decide)
     (Or.inl (by simp [magnitude, sqrtQ, show natSqrt 0 = 0 from by decide,
       show natSqrt 1 = 1 from by decide]))⟩

instance : IsTotal SearchResult scoreDesc :=
  ⟨fun a b => le_total b.score a.score⟩

instance : IsTrans SearchResult scoreDesc :=
  ⟨fun _ _ _ h1 h2 => le_trans h2 h1⟩

/-- C7: whenever the scoring pass succeeds (every embedding matches the
query's dimension), `searchSimilar` returns the first `topK` entries of a
sorted permutation of the scored records: at most `topK` results, pairwise
non-increasing in score, and any two records in original order whose scores
allow it (in particular ties) keep their relative order - the stable-sort
tie-break by original index. -/
theorem searchSimilar_spec (q : List ℚ) (data : EmbeddingsData) (topK : ℕ)
    (base : List SearchResult) (hbase : scoredResults q data.comments = .ok base) :
    ∃ full : List SearchResult,
      searchSimilar q (some data) topK = .ok (full.take topK) ∧
      (full.take topK).length ≤ topK ∧
      List.Pairwise scoreDesc (full.take topK) ∧
      full.Perm base ∧
      (∀ a b : SearchResult, [a, b].Sublist base → b.score ≤ a.score →
        [a, b].Sublist full) := by
  refine ⟨List.insertionSort scoreDesc base, ?_, ?_, ?_, ?_, ?_⟩
  · simp [searchSimilar, hbase]
  · simpa using List.length_take_le topK _
  · exact List.Pairwise.sublist (List.take_sublist _ _)
      (List.sorted_insertionSort scoreDesc base)
  · exact List.perm_insertionSort scoreDesc base
  · intro a b hab hba
    exact List.pair_sublist_insertionSort hba hab

/-- Witness for C7: query `[1]` against records with embeddings `[2]`, `[3]`
and `[0]` - the first two both score `1` (a tie kept in original order by
the theorem), the zero vector scores `0`. -/
theorem searchSimilar_spec_witness :
    ∃ full : List SearchResult,
      searchSimilar [1] (some ⟨[⟨"a", "pa", "s", [], [2]⟩, ⟨"b", "pb", "s", [], [3]⟩,
          ⟨"c", "pc", "s", [], [0]⟩]⟩) 2 = .ok (full.take 2) ∧
      (full.take 2).length ≤ 2 ∧
      List.Pairwise scoreDesc (full.take 2) ∧
      full.Perm [⟨"a", "pa", "s", [], 1⟩, ⟨"b", "pb", "s", [], 1⟩, ⟨"c", "pc", "s", [], 0⟩] ∧
      (∀ a b : SearchResult,
        [a, b].Sublist [⟨"a", "pa", "s", [], 1⟩, ⟨"b", "pb", "s", [], 1⟩,
          ⟨"c", "pc", "s", [], 0⟩] →
        b.score ≤ a.score → [a, b].Sublist full) :=
  searchSimilar_spec [1] ⟨[⟨"a", "pa", "s", [], [2]⟩, ⟨"b", "pb", "s", [], [3]⟩,
      ⟨"c", "pc", "s", [], [0]⟩]⟩ 2
    [⟨"a", "pa", "s", [], 1⟩, ⟨"b", "pb", "s", [], 1⟩, ⟨"c", "pc", "s", [], 0⟩]
    (by
      have n1 : natSqrt 1 = 1 := by decide
      have n4 : natSqrt 4 = 2 := by decide
      have n9 : natSqrt 9 = 3 := by decide
      have n0 : natSqrt 0 = 0 := by decide
      have s1 : sqrtQ 1 = 1 := by norm_num [sqrtQ, n1]
      have s4 : sqrtQ 4 = 2 := by
        rw [sqrtQ]
        norm_num [show Int.toNat 4 = 4 from by decide, n1, n4]
      have s9 : sqrtQ 9 = 3 := by
        rw [sqrtQ]
        norm_num [show Int.toNat 9 = 9 from by decide, n1, n9]
      have s0 : sqrtQ 0 = 0 := by norm_num [sqrtQ, n0, n1]
      norm_num [scoredResults, cosineSimilarity, magnitude, s0, s1, s4, s9])

instance : IsTotal ScoredComment matchDesc :=
  ⟨fun a b => le_total b.matchScore a.matchScore⟩

instance : IsTrans ScoredComment matchDesc :=
  ⟨fun _ _ _ h1 h2 => le_trans h2 h1⟩

/-- C8: `textSearch` is exactly a stable descending sort of the comments
that score positively: its output is pairwise non-increasing in
`matchScore` and is a permutation of the scored comments
(`scoreComment` with the whitespace tokens of length > 2, scores the
fraction of tokens contained case-insensitively) restricted to positive
scores - zero-match comments are excluded.  Determinism is inherent:
`textSearch` is a pure function of its two arguments. -/
theorem textSearch_spec (query : String) (comments : List TextComment) :
    List.Pairwise matchDesc (textSearch query comments) ∧
    (textSearch query comments).Perm
      ((comments.map (scoreComment (queryTokens query))).filter
        (fun c => decide (0 < c.matchScore))) := by
  constructor
  · exact List.sorted_insertionSort matchDesc _
  · exact List.perm_insertionSort matchDesc _

/-- C9: when `k` strictly exceeds the number of comment records,
`clusterComments` returns the empty assignment list - not a partial
clustering and not an error - whatever the random draws were. -/
theorem clusterComments_k_exceeds_size (data : EmbeddingsData) (k : ℕ) (picks : List ℕ)
    (h : data.comments.length < k) :
    clusterComments (some data) k picks = .ok [] := by
  simp [clusterComments, h]

/-- Witness for C9: one record, `k = 2`. -/
theorem clusterComments_k_exceeds_size_witness :
    clusterComments (some ⟨[⟨"a", "pa", "s", [], [2]⟩]⟩) 2 [0, 1] = .ok [] :=
  clusterComments_k_exceeds_size ⟨[⟨"a", "pa", "s", [], [2]⟩]⟩ 2 [0, 1] (by decide)

/-- C10: a query with no whitespace-separated token longer than two
characters leaves the token list empty; every comment then scores the
indeterminate `0/0` (`NaN` in the source, `0` in this exact model - both
fail the `> 0` filter), so `textSearch` returns the empty list rather than
all comments or a division error. -/
theorem textSearch_short_tokens_empty (query : String) (comments : List TextComment)
    (h : ∀ t ∈ jsStrSplit (jsToLower query) (fun c => c.isWhitespace), t.length ≤ 2) :
    textSearch query comments = [] := by
  have htok : queryTokens query = [] := by
    rw [queryTokens, List.filter_eq_nil_iff]
    intro t ht
    simpa using Nat.not_lt.mpr (h t ht)
  have hfilter : (comments.map (scoreComment (queryTokens query))).filter
      (fun c => decide (0 < c.matchScore)) = [] := by
    rw [List.filter_eq_nil_iff]
    intro x hx
    rcases List.mem_map.mp hx with ⟨c, _, rfl⟩
    simp [scoreComment, htok]
  rw [textSearch]
  simp only [hfilter.symm]
  rw [hfilter]
  rfl

/-- Witness for C10: the query `"a to of"` (no token longer than two
characters) against a non-empty comment list. -/
theorem textSearch_short_tokens_empty_witness :
    textSearch "a to of" [⟨some "anything at all", none⟩] = [] :=
  textSearch_short_tokens_empty "a to of" [⟨some "anything at all", none⟩] (by decide)

/-! ## Claims about the context assembler -/

theorem segStarts_needle_nil (hay : List Char) : segStarts hay [] = true := by
  cases hay <;> rfl

theorem segStarts_nil_of (n : List Char) (h : segStarts [] n = true) : n = [] := by
  cases n with
  | nil => rfl
  | cons d ds => simp [segStarts] at h

theorem segStarts_append (h t n : List Char) (hs : segStarts h n = true) :
    segStarts (h ++ t) n = true := by
  induction n generalizing h with
  | nil => exact segStarts_needle_nil _
  | cons d ds ih =>
    cases h with
    | nil => simp [segStarts] at hs
    | cons c cs =>
      simp only [segStarts, List.cons_append, Bool.and_eq_true, decide_eq_true_eq] at hs ⊢
      exact ⟨hs.1, ih cs hs.2⟩

theorem segStarts_self (n t : List Char) : segStarts (n ++ t) n = true := by
  induction n with
  | nil => exact segStarts_needle_nil t
  | cons c cs ih =>
    simp only [List.cons_append, segStarts, Bool.and_eq_true, decide_eq_true_eq]
    exact ⟨trivial, ih⟩

theorem segIn_nil_needle (hay : List Char) : segIn [] hay = true := by
  cases hay with
  | nil => rfl
  | cons c cs =>
    simp only [segIn, Bool.or_eq_true]
    exact Or.inl (segStarts_needle_nil _)

theorem segIn_self_append (n t : List Char) : segIn n (n ++ t) = true := by
  cases n with
  | nil => exact segIn_nil_needle t
  | cons c cs =>
    simp only [List.cons_append, segIn, Bool.or_eq_true]
    exact Or.inl (segStarts_self (c :: cs) t)

theorem segIn_append_left (a b n : List Char) (h : segIn n b = true) :
    segIn n (a ++ b) = true := by
  induction a with
  | nil => simpa using h
  | cons c cs ih =>
    simp only [List.cons_append, segIn, Bool.or_eq_true]
    exact Or.inr ih

theorem segIn_append_right (a b n : List Char) (h : segIn n a = true) :
    segIn n (a ++ b) = true := by
  induction a with
  | nil =>
    have hn : n = [] := segStarts_nil_of n (by simpa [segIn] using h)
    subst hn
    exact segIn_nil_needle b
  | cons c cs ih =>
    simp only [segIn, Bool.or_eq_true] at h
    simp only [List.cons_append, segIn, Bool.or_eq_true]
    rcases h with h1 | h2
    · exact Or.inl (segStarts_append (c :: cs) b n h1)
    · exact Or.inr (ih h2)

theorem segIn_foldl_of_acc {α : Type} (f : α → String) (xs : List α) (acc : String)
    (n : List Char) (h : segIn n acc.data = true) :
    segIn n (xs.foldl (fun a x => a ++ f x) acc).data = true := by
  induction xs generalizing acc with
  | nil => simpa using h
  | cons y ys ih =>
    rw [List.foldl_cons]
    apply ih
    rw [String.data_append]
    exact segIn_append_right acc.data (f y).data n h

/-- Every element's string contribution occurs in an append-accumulating
fold, whatever the accumulator started as. -/
theorem segIn_foldl_append {α : Type} (f : α → String) (l : List α) (init : String)
    (a : α) (ha : a ∈ l) :
    segIn (f a).data (l.foldl (fun acc x => acc ++ f x) init).data = true := by
  induction l generalizing init with
  | nil => cases ha
  | cons x xs ih =>
    rw [List.foldl_cons]
    rcases List.mem_cons.mp ha with rfl | hmem
    · apply segIn_foldl_of_acc
      rw [String.data_append]
      apply segIn_append_left
      simpa using segIn_self_append (f a).data []
    · exact ih _ hmem

theorem mem_enum_of_getElem {α : Type} {l : List α} {i : ℕ} {c : α}
    (h : l[i]? = some c) : (i, c) ∈ l.enum :=
  List.getElem?_mem (by rw [List.getElem?_enum, h]; rfl)

/-- C1 counterexample: `buildContext` on six search results.  The sixth
excerpt (`[6] a6: "t6..."`) occurs in the output string, so results beyond
the fifth are not cut off by the context assembler (only the themes list is
sliced to 5; the five-result bound on comments comes from the caller, which
requests `match_count: 5`). -/
theorem buildContext_includes_sixth_result :
    segIn (commentExcerpt 5 ⟨"c6", some "t6", none, some "a6"⟩).data
      (buildContext
        [⟨"c1", some "t1", none, some "a1"⟩, ⟨"c2", some "t2", none, some "a2"⟩,
         ⟨"c3", some "t3", none, some "a3"⟩, ⟨"c4", some "t4", none, some "a4"⟩,
         ⟨"c5", some "t5", none, some "a5"⟩, ⟨"c6", some "t6", none, some "a6"⟩]
        none).data = true := by decide

/-- C1 (amended): `buildContext` appends an excerpt for every search result
it is given - the result at any index `i` appears as the numbered excerpt
`[i+1] author: "text truncated to 300 characters..."` in the output string;
the five-result cap observed in production is enforced upstream by
`handleChat`, which retrieves at most 5 results (`match_count: 5`), not by
`buildContext`. -/
theorem buildContext_appends_every_result (comments : List RetrievedComment)
    (analysis : Option Analysis) (i : ℕ) (c : RetrievedComment)
    (hget : comments[i]? = some c) :
    segIn (commentExcerpt i c).data (buildContext comments analysis).data = true := by
  have hmem : (i, c) ∈ comments.enum := mem_enum_of_getElem hget
  have hlen : comments.length ≠ 0 := by
    intro h0
    rw [List.length_eq_zero] at h0
    subst h0
    simp at hget
  simp only [buildContext]
  rw [String.data_append]
  apply segIn_append_left
  rw [if_pos hlen]
  exact segIn_foldl_append (fun p : ℕ × RetrievedComment => commentExcerpt p.1 p.2)
    comments.enum "## Relevant Comments\n" (i, c) hmem

/-- Witness for C1 (amended): with two search results and a full analysis
block present, the second result's excerpt occurs in the output. -/
theorem buildContext_appends_every_result_witness :
    segIn (commentExcerpt 1 ⟨"c2", some "t2", none, some "a2"⟩).data
      (buildContext [⟨"c1", some "t1", none, some "a1"⟩, ⟨"c2", some "t2", none, some "a2"⟩]
        (some ⟨some "sum", some ⟨some 40, some 60⟩, some [⟨"th", some "de"⟩]⟩)).data = true :=
  buildContext_appends_every_result
    [⟨"c1", some "t1", none, some "a1"⟩, ⟨"c2", some "t2", none, some "a2"⟩]
    (some ⟨some "sum", some ⟨some 40, some 60⟩, some [⟨"th", some "de"⟩]⟩)
    1 ⟨"c2", some "t2", none, some "a2"⟩ (by decide)
